import Mathlib

/-!
Verification of the cheque-clearance application.

The repository consists of a Vue frontend (`src/frontend/src/App.vue`) whose
script embeds the client logic faithfully below, and a backend Store/Service
described only by the design document; the backend definitions are therefore
modelled from the spec and marked as such in their doc comments.
-/

namespace ChequeApp

/-- JSON values, used for request and response bodies of the REST interface. -/
inductive JsonVal where
  | null : JsonVal
  | bool : Bool → JsonVal
  | num : Int → JsonVal
  | str : String → JsonVal
  | arr : List JsonVal → JsonVal
  | obj : List (String × JsonVal) → JsonVal

/-- Modelled from the spec: ChequeRecord, the sole entity (spec §3). -/
structure ChequeRecord where
  id : Nat
  cheque_number : String
  manager_approved : Bool
deriving DecidableEq

/-- Modelled from the spec: the two error kinds (spec §7). -/
inductive StoreError where
  | ValidationError : StoreError
  | NotFoundError : StoreError
deriving DecidableEq

/-- Modelled from the spec: the Cheque Store, a monotonic id counter together
with the pending records in insertion order (spec §4.1). -/
structure Store where
  nextId : Nat
  records : List ChequeRecord
deriving DecidableEq

/-- Modelled from the spec: the fresh Store; the scenario in spec §8 assigns
id 1 to the first record. -/
def Store.empty : Store := ⟨1, []⟩

/-- Modelled from the spec: recognized boolean-equivalent values for the
`managerApproved` input (spec §4.1). -/
def boolEquiv : JsonVal → Option Bool
  | .bool b => some b
  | _ => none

/-- Modelled from the spec: `create(chequeNumber, managerApproved)` (spec §4.1).
Fails with `ValidationError` if `chequeNumber` is empty or `managerApproved`
is not a recognized boolean-equivalent value; otherwise assigns the next id,
appends the record and bumps the counter. -/
def Store.create (s : Store) (chequeNumber : String) (managerApproved : JsonVal) :
    Except StoreError (ChequeRecord × Store) :=
  match boolEquiv managerApproved with
  | none => .error .ValidationError
  | some b =>
    if chequeNumber = "" then .error .ValidationError
    else
      .ok (⟨s.nextId, chequeNumber, b⟩,
           ⟨s.nextId + 1, s.records ++ [⟨s.nextId, chequeNumber, b⟩]⟩)

/-- Modelled from the spec: `list()` returns all currently pending records in
insertion order (spec §4.1). -/
def Store.list (s : Store) : List ChequeRecord := s.records

/-- Whether a record with the given id is currently present. -/
def Store.hasId (s : Store) (id : Nat) : Bool :=
  s.records.any (fun r => r.id == id)

/-- Modelled from the spec: `remove(id)` deletes the record with the given id
and fails with `NotFoundError` if no record with that id currently exists
(spec §4.1). -/
def Store.remove (s : Store) (id : Nat) : Except StoreError Store :=
  if s.hasId id then
    .ok ⟨s.nextId, s.records.filter (fun r => r.id != id)⟩
  else
    .error .NotFoundError

/-- A mutating Store operation (the API surface of spec §4.1 minus the
read-only `list`). -/
inductive StoreOp where
  | create : String → JsonVal → StoreOp
  | remove : Nat → StoreOp

/-- One operation applied to the Store; a failed operation leaves the Store
unchanged (spec §7: errors are local and recoverable). -/
def Store.step (s : Store) (op : StoreOp) : Store :=
  match op with
  | .create cn ma =>
    match s.create cn ma with
    | .ok (_, s') => s'
    | .error _ => s
  | .remove id =>
    match s.remove id with
    | .ok s' => s'
    | .error _ => s

/-- A sequence of operations applied to the Store. -/
def Store.run (s : Store) (ops : List StoreOp) : Store := ops.foldl Store.step s

/-- The ids handed out by a single operation (empty unless a `create`
succeeds). -/
def Store.emitted (s : Store) (op : StoreOp) : List Nat :=
  match op with
  | .create cn ma =>
    match s.create cn ma with
    | .ok (r, _) => [r.id]
    | .error _ => []
  | .remove _ => []

/-- All ids handed out by `create` over a run of operations. -/
def Store.createdIds : Store → List StoreOp → List Nat
  | _, [] => []
  | s, op :: ops => s.emitted op ++ Store.createdIds (s.step op) ops

/-- Well-formedness: every present id is below the counter. -/
def Store.wf (s : Store) : Prop := ∀ r ∈ s.records, r.id < s.nextId

/-! ### The Cheque Service (API layer) and the REST interface -/

/-- The JSON serialization of a record, field names as in spec §6. -/
def recordJson (r : ChequeRecord) : JsonVal :=
  .obj [("id", .num (Int.ofNat r.id)),
        ("cheque_number", .str r.cheque_number),
        ("manager_approved", .bool r.manager_approved)]

/-- An HTTP response: status code and JSON body. -/
structure HttpResponse where
  status : Nat
  body : JsonVal

/-- Whether a status code counts as ok for `fetch` (`response.ok` is true
exactly for statuses 200–299). -/
def responseOk (status : Nat) : Bool := 200 ≤ status && status < 300

/-- Modelled from the spec: the Service handler for `POST /api/cheques`
(spec §4.2, §6): on success `200/201` with the created record, on
`ValidationError` a client-error status with no record created. -/
def Service.postCheques (s : Store) (cn : String) (ma : JsonVal) :
    HttpResponse × Store :=
  match s.create cn ma with
  | .ok (r, s') => (⟨201, recordJson r⟩, s')
  | .error _ => (⟨422, .null⟩, s)

/-- Modelled from the spec: the Service handler for `GET /api/cheques`
(spec §4.2, §6): `200` with the ordered sequence serialized as an array. -/
def Service.getCheques (s : Store) : HttpResponse :=
  ⟨200, .arr (s.list.map recordJson)⟩

/-- Modelled from the spec: the Service handler for `DELETE /api/cheques/{id}`
(spec §4.2, §6): `200/204` on success, `404` on `NotFoundError`. -/
def Service.deleteCheque (s : Store) (id : Nat) : HttpResponse × Store :=
  match s.remove id with
  | .ok s' => (⟨204, .null⟩, s')
  | .error _ => (⟨404, .null⟩, s)

/-! ### The frontend client (embedded from src/frontend/src/App.vue) -/

/-- The endpoint used by every client request (App.vue line 4). -/
def API_URL : String := "http://127.0.0.1:8000/api/cheques"

/-- The reactive state of the component (App.vue lines 6–11). -/
structure ClientState where
  chequeNo : String
  approved : String
  cheques : List JsonVal
  loading : Bool
  notificationMessage : String
  notificationType : String

/-- The initial reactive state (App.vue lines 6–11). -/
def initialClientState : ClientState :=
  ⟨"", "yes", [], false, "", ""⟩

/-- An HTTP request as issued by the client via `fetch`. -/
structure Request where
  method : String
  url : String
  requestBody : Option JsonVal

/-- The outcome of a `fetch` as observed by the client: either the promise
chain throws (network failure or body-parse failure), or a response with a
status and parsed body arrives. -/
inductive FetchResult where
  | networkError : FetchResult
  | response : Nat → JsonVal → FetchResult

/-- A pending `setTimeout`: delay in milliseconds and the state change it
performs when it fires. -/
structure Timer where
  delayMs : Nat
  action : ClientState → ClientState

/-- Clearing the notification fields, the body of the `setTimeout` callback
in `showNotification` (App.vue lines 80–83). -/
def clearNotification (st : ClientState) : ClientState :=
  { st with notificationMessage := "", notificationType := "" }

/-- The function `showNotification(message, type)` (App.vue lines 76–84)
sets the two
notification fields and schedules their clearing after 3000 ms. -/
def showNotification (st : ClientState) (message ty : String) :
    ClientState × Timer :=
  ({ st with notificationMessage := message, notificationType := ty },
   ⟨3000, clearNotification⟩)

/-- The expression `Array.isArray(data) ? data : []` (App.vue line 18). -/
def arrayOrEmpty (data : JsonVal) : List JsonVal :=
  match data with
  | .arr xs => xs
  | _ => []

/-- The GET request issued by `loadCheques` (App.vue line 16). -/
def loadRequest : Request := ⟨"GET", API_URL, none⟩

/-- The handler `loadCheques` (App.vue lines 13–25), as a function from the state and
the observed fetch outcome to the final state and the timers scheduled:
on a response the cheques become the parsed body if it is an array and `[]`
otherwise; on a thrown error an error notification is shown; `loading` is
reset in `finally`. -/
def loadCheques (st : ClientState) (res : FetchResult) :
    ClientState × List Timer :=
  match res with
  | .networkError =>
    ({ (showNotification st "Failed to load cheques" "error").1 with
        loading := false },
     [(showNotification st "Failed to load cheques" "error").2])
  | .response _ data =>
    ({ st with cheques := arrayOrEmpty data, loading := false }, [])

/-- The POST request issued by `submitCheque` (App.vue lines 29–38): body
`{cheque_number: chequeNo, manager_approved: approved === 'yes'}`. -/
def submitRequest (st : ClientState) : Request :=
  ⟨"POST", API_URL,
   some (.obj [("cheque_number", .str st.chequeNo),
               ("manager_approved", .bool (st.approved == "yes"))])⟩

/-- The handler `submitCheque` (App.vue lines 27–52): on an ok response a success
notification, the form resets to `chequeNo = ''`, `approved = 'yes'` and the
list is reloaded; otherwise an error notification. -/
def submitCheque (st : ClientState) (res : FetchResult)
    (loadRes : FetchResult) : ClientState × List Timer :=
  match res with
  | .networkError =>
    ((showNotification st "Failed to add cheque" "error").1,
     [(showNotification st "Failed to add cheque" "error").2])
  | .response status _ =>
    if responseOk status then
      let st₁ := (showNotification st "Cheque added successfully! ✓" "success").1
      let st₂ := { st₁ with chequeNo := "", approved := "yes" }
      ((loadCheques st₂ loadRes).1,
       (showNotification st "Cheque added successfully! ✓" "success").2 ::
         (loadCheques st₂ loadRes).2)
    else
      ((showNotification st "Failed to add cheque" "error").1,
       [(showNotification st "Failed to add cheque" "error").2])

/-- The DELETE request issued by `clearCheque` (App.vue lines 60–62). -/
def clearRequest (id : Nat) : Request :=
  ⟨"DELETE", API_URL ++ "/" ++ toString id, none⟩

/-- The handler `clearCheque` (App.vue lines 54–74): nothing happens unless the user
confirms; on an ok response a success notification and a reload, otherwise
an error notification. -/
def clearCheque (st : ClientState) (confirmed : Bool) (res : FetchResult)
    (loadRes : FetchResult) : ClientState × List Timer :=
  match confirmed, res with
  | false, _ => (st, [])
  | true, .networkError =>
    ((showNotification st "Failed to clear cheque" "error").1,
     [(showNotification st "Failed to clear cheque" "error").2])
  | true, .response status _ =>
    if responseOk status then
      (((loadCheques (showNotification st "Cheque cleared successfully! ✓"
          "success").1 loadRes)).1,
       (showNotification st "Cheque cleared successfully! ✓" "success").2 ::
         (loadCheques (showNotification st "Cheque cleared successfully! ✓"
           "success").1 loadRes).2)
    else
      ((showNotification st "Failed to clear cheque" "error").1,
       [(showNotification st "Failed to clear cheque" "error").2])

/-! ### Basic facts about the Store transition system -/

theorem Store.run_nil (s : Store) : s.run [] = s := rfl

theorem Store.run_cons (s : Store) (op : StoreOp) (ops : List StoreOp) :
    s.run (op :: ops) = (s.step op).run ops := rfl

theorem Store.run_append (s : Store) (l₁ l₂ : List StoreOp) :
    s.run (l₁ ++ l₂) = (s.run l₁).run l₂ := by
  simp [Store.run]

/-- A successful `create` appends the fresh record and bumps the counter. -/
theorem Store.create_eq_ok (s : Store) (cn : String) (ma : JsonVal)
    (r : ChequeRecord) (s' : Store) (h : s.create cn ma = .ok (r, s')) :
    ∃ b, boolEquiv ma = some b ∧ cn ≠ "" ∧ r = ⟨s.nextId, cn, b⟩ ∧
      s' = ⟨s.nextId + 1, s.records ++ [r]⟩ := by
  unfold Store.create at h
  cases hb : boolEquiv ma with
  | none => rw [hb] at h; exact absurd h (by simp)
  | some b =>
    rw [hb] at h
    by_cases hcn : cn = ""
    · simp [hcn] at h
    · simp only [hcn, if_false] at h
      obtain ⟨hr, hs⟩ := by simpa using h
      exact ⟨b, rfl, hcn, hr.symm, by rw [← hs, ← hr]⟩

/-- A successful `remove` keeps the counter and filters out the id. -/
theorem Store.remove_eq_ok (s : Store) (id : Nat) (s' : Store)
    (h : s.remove id = .ok s') :
    s.hasId id = true ∧ s' = ⟨s.nextId, s.records.filter (fun r => r.id != id)⟩ := by
  unfold Store.remove at h
  by_cases hh : s.hasId id = true
  · refine ⟨hh, ?_⟩
    simp only [hh, if_true, Except.ok.injEq] at h
    exact h.symm
  · simp [hh] at h

theorem Store.step_create_of_ok (s : Store) (cn : String) (ma : JsonVal)
    (r : ChequeRecord) (s' : Store) (h : s.create cn ma = .ok (r, s')) :
    s.step (.create cn ma) = s' := by
  simp [Store.step, h]

theorem Store.step_remove_of_ok (s : Store) (id : Nat) (s' : Store)
    (h : s.remove id = .ok s') : s.step (.remove id) = s' := by
  simp [Store.step, h]

/-- The id counter never decreases. -/
theorem Store.step_nextId_le (s : Store) (op : StoreOp) :
    s.nextId ≤ (s.step op).nextId := by
  cases op with
  | create cn ma =>
    cases hc : s.create cn ma with
    | ok p =>
      obtain ⟨b, _, _, _, hs⟩ := Store.create_eq_ok s cn ma p.1 p.2 (by rw [hc])
      simp [Store.step, hc, hs]
    | error e => simp [Store.step, hc]
  | remove id =>
    cases hr : s.remove id with
    | ok s' =>
      obtain ⟨_, hs⟩ := Store.remove_eq_ok s id s' hr
      simp [Store.step, hr, hs]
    | error e => simp [Store.step, hr]

theorem Store.run_nextId_le (s : Store) (ops : List StoreOp) :
    s.nextId ≤ (s.run ops).nextId := by
  induction ops generalizing s with
  | nil => exact Nat.le_refl _
  | cons op ops ih =>
    rw [Store.run_cons]
    exact Nat.le_trans (Store.step_nextId_le s op) (ih (s.step op))

theorem Store.wf_empty : Store.empty.wf := by
  intro r hr
  simp [Store.empty] at hr

theorem Store.wf_step (s : Store) (op : StoreOp) (h : s.wf) : (s.step op).wf := by
  cases op with
  | create cn ma =>
    cases hc : s.create cn ma with
    | ok p =>
      obtain ⟨b, _, _, hrr, hs⟩ := Store.create_eq_ok s cn ma p.1 p.2 (by rw [hc])
      simp only [Store.step, hc]
      rw [hs]
      intro r hr
      rcases List.mem_append.mp hr with hl | hr1
      · exact Nat.lt_trans (h r hl) (Nat.lt_succ_self _)
      · rw [List.mem_singleton.mp hr1, hrr]
        exact Nat.lt_succ_self _
    | error e => simpa [Store.step, hc] using h
  | remove id =>
    cases hrm : s.remove id with
    | ok s' =>
      obtain ⟨_, hs⟩ := Store.remove_eq_ok s id s' hrm
      simp only [Store.step, hrm]
      rw [hs]
      intro r hr
      exact h r (List.mem_of_mem_filter hr)
    | error e => simpa [Store.step, hrm] using h

theorem Store.wf_run (s : Store) (ops : List StoreOp) (h : s.wf) : (s.run ops).wf := by
  induction ops generalizing s with
  | nil => exact h
  | cons op ops ih => exact ih (s.step op) (Store.wf_step s op h)

/-- The ids in the record list are strictly increasing in list order:
records are appended with a fresh counter value, and filtering preserves
the order. -/
theorem Store.sorted_step (s : Store) (op : StoreOp) (hwf : s.wf)
    (h : (s.records.map (fun r => r.id)).Pairwise (· < ·)) :
    ((s.step op).records.map (fun r => r.id)).Pairwise (· < ·) := by
  cases op with
  | create cn ma =>
    cases hc : s.create cn ma with
    | ok p =>
      obtain ⟨b, _, _, hrr, hs⟩ := Store.create_eq_ok s cn ma p.1 p.2 (by rw [hc])
      simp only [Store.step, hc]
      rw [hs]
      rw [List.map_append, List.pairwise_append]
      refine ⟨h, by simp, ?_⟩
      intro a ha c hc2
      simp only [List.map_cons, List.map_nil, List.mem_singleton] at hc2
      obtain ⟨r, hrmem, hra⟩ := List.mem_map.mp ha
      rw [hc2, hrr]
      rw [← hra]
      exact hwf r hrmem
    | error e => simpa [Store.step, hc] using h
  | remove id =>
    cases hrm : s.remove id with
    | ok s' =>
      obtain ⟨_, hs⟩ := Store.remove_eq_ok s id s' hrm
      simp only [Store.step, hrm]
      rw [hs]
      exact h.sublist (List.Sublist.map _ (List.filter_sublist _))
    | error e => simpa [Store.step, hrm] using h

theorem Store.sorted_run (s : Store) (ops : List StoreOp) (hwf : s.wf)
    (h : (s.records.map (fun r => r.id)).Pairwise (· < ·)) :
    ((s.run ops).records.map (fun r => r.id)).Pairwise (· < ·) := by
  induction ops generalizing s with
  | nil => exact h
  | cons op ops ih =>
    exact ih (s.step op) (Store.wf_step s op hwf) (Store.sorted_step s op hwf h)

/-- An id that is below the counter and absent from the records stays absent
forever: fresh creations use counter values, which are strictly larger. -/
theorem Store.dead_step (s : Store) (id : Nat) (op : StoreOp)
    (hlt : id < s.nextId) (habs : ∀ r ∈ s.records, r.id ≠ id) :
    id < (s.step op).nextId ∧ ∀ r ∈ (s.step op).records, r.id ≠ id := by
  refine ⟨Nat.lt_of_lt_of_le hlt (Store.step_nextId_le s op), ?_⟩
  cases op with
  | create cn ma =>
    cases hc : s.create cn ma with
    | ok p =>
      obtain ⟨b, _, _, hrr, hs⟩ := Store.create_eq_ok s cn ma p.1 p.2 (by rw [hc])
      simp only [Store.step, hc]
      rw [hs]
      intro r hr
      rcases List.mem_append.mp hr with hl | hr1
      · exact habs r hl
      · rw [List.mem_singleton.mp hr1, hrr]
        exact Nat.ne_of_gt hlt
    | error e => simpa [Store.step, hc] using habs
  | remove id' =>
    cases hrm : s.remove id' with
    | ok s' =>
      obtain ⟨_, hs⟩ := Store.remove_eq_ok s id' s' hrm
      simp only [Store.step, hrm]
      rw [hs]
      intro r hr
      exact habs r (List.mem_of_mem_filter hr)
    | error e => simpa [Store.step, hrm] using habs

theorem Store.dead_run (s : Store) (id : Nat) (ops : List StoreOp)
    (hlt : id < s.nextId) (habs : ∀ r ∈ s.records, r.id ≠ id) :
    ∀ r ∈ (s.run ops).records, r.id ≠ id := by
  induction ops generalizing s with
  | nil => exact habs
  | cons op ops ih =>
    rw [Store.run_cons]
    obtain ⟨hlt', habs'⟩ := Store.dead_step s id op hlt habs
    exact ih (s.step op) hlt' habs'

/-- A present record survives any operation other than the removal of its
own id. -/
theorem Store.mem_step (s : Store) (r : ChequeRecord) (op : StoreOp)
    (h : r ∈ s.records) (hop : op ≠ .remove r.id) : r ∈ (s.step op).records := by
  cases op with
  | create cn ma =>
    cases hc : s.create cn ma with
    | ok p =>
      obtain ⟨b, _, _, _, hs⟩ := Store.create_eq_ok s cn ma p.1 p.2 (by rw [hc])
      simp only [Store.step, hc]
      rw [hs]
      exact List.mem_append_left _ h
    | error e => simpa [Store.step, hc] using h
  | remove id' =>
    cases hrm : s.remove id' with
    | ok s' =>
      obtain ⟨_, hs⟩ := Store.remove_eq_ok s id' s' hrm
      simp only [Store.step, hrm]
      rw [hs]
      refine List.mem_filter.mpr ⟨h, ?_⟩
      simp only [bne_iff_ne, ne_eq]
      intro hEq
      exact hop (by rw [← hEq])
    | error e => simpa [Store.step, hrm] using h

theorem Store.mem_run (s : Store) (r : ChequeRecord) (ops : List StoreOp)
    (h : r ∈ s.records) (hops : ∀ id, StoreOp.remove id ∈ ops → id ≠ r.id) :
    r ∈ (s.run ops).records := by
  induction ops generalizing s with
  | nil => exact h
  | cons op ops ih =>
    rw [Store.run_cons]
    refine ih (s.step op) (Store.mem_step s r op h ?_) ?_
    · intro hEq
      exact hops r.id (by rw [← hEq]; exact List.mem_cons_self _ _) rfl
    · intro id hid
      exact hops id (List.mem_cons_of_mem _ hid)

/-- An emitted id is the current counter value, and emission bumps the
counter. -/
theorem Store.mem_emitted (s : Store) (op : StoreOp) (i : Nat)
    (h : i ∈ s.emitted op) : i = s.nextId ∧ (s.step op).nextId = s.nextId + 1 := by
  cases op with
  | create cn ma =>
    cases hc : s.create cn ma with
    | ok p =>
      obtain ⟨b, _, _, hrr, hs⟩ := Store.create_eq_ok s cn ma p.1 p.2 (by rw [hc])
      simp only [Store.emitted, hc, List.mem_singleton] at h
      refine ⟨?_, ?_⟩
      · rw [h, hrr]
      · simp only [Store.step, hc]
        rw [hs]
    | error e => simp [Store.emitted, hc] at h
  | remove id => simp [Store.emitted] at h

theorem Store.createdIds_nil (s : Store) : s.createdIds [] = [] := rfl

theorem Store.createdIds_cons (s : Store) (op : StoreOp) (ops : List StoreOp) :
    s.createdIds (op :: ops) = s.emitted op ++ (s.step op).createdIds ops := rfl

theorem Store.createdIds_append (s : Store) (l₁ l₂ : List StoreOp) :
    s.createdIds (l₁ ++ l₂) = s.createdIds l₁ ++ (s.run l₁).createdIds l₂ := by
  induction l₁ generalizing s with
  | nil => simp [Store.createdIds_nil, Store.run_nil]
  | cons op ops ih =>
    simp only [List.cons_append, Store.createdIds_cons, Store.run_cons, ih,
      List.append_assoc]

/-- Every id created during a run is at least the counter at the start. -/
theorem Store.createdIds_lb (s : Store) (ops : List StoreOp) :
    ∀ i ∈ s.createdIds ops, s.nextId ≤ i := by
  induction ops generalizing s with
  | nil => intro i hi; simp [Store.createdIds_nil] at hi
  | cons op ops ih =>
    intro i hi
    rw [Store.createdIds_cons] at hi
    rcases List.mem_append.mp hi with he | hrest
    · exact Nat.le_of_eq (Store.mem_emitted s op i he).1.symm
    · exact Nat.le_trans (Store.step_nextId_le s op) (ih (s.step op) i hrest)

/-- The ids created during a run are strictly increasing. -/
theorem Store.createdIds_pairwise (s : Store) (ops : List StoreOp) :
    (s.createdIds ops).Pairwise (· < ·) := by
  induction ops generalizing s with
  | nil => simp [Store.createdIds_nil]
  | cons op ops ih =>
    rw [Store.createdIds_cons, List.pairwise_append]
    refine ⟨?_, ih (s.step op), ?_⟩
    · cases op with
      | create cn ma =>
        cases hc : s.create cn ma with
        | ok p => simp [Store.emitted, hc]
        | error e => simp [Store.emitted, hc]
      | remove id => simp [Store.emitted]
    · intro a ha b hb
      obtain ⟨haEq, hbump⟩ := Store.mem_emitted s op a ha
      have hlb := Store.createdIds_lb (s.step op) ops b hb
      rw [haEq]
      exact Nat.lt_of_lt_of_le (by rw [hbump] at hlb ⊢; exact Nat.lt_succ_self _) hlb

/-- C1: For every sequence of `Store.create` calls, the ids produced are
pairwise distinct, and an id assigned at creation is never reused after the
record bearing it is deleted: an id assigned in a prefix of the history is
never assigned again in the remainder, whether or not it was deleted in
between. -/
theorem C1_created_ids_distinct (ops : List StoreOp) :
    (Store.empty.createdIds ops).Nodup ∧
    ∀ pre post, ops = pre ++ post →
      ∀ i ∈ Store.empty.createdIds pre, i ∉ (Store.empty.run pre).createdIds post := by
  have hNodup : ∀ l : List StoreOp, (Store.empty.createdIds l).Nodup :=
    fun l => (Store.createdIds_pairwise Store.empty l).imp Nat.ne_of_lt
  refine ⟨hNodup ops, ?_⟩
  intro pre post hsplit i hpre hpost
  have h := hNodup ops
  rw [hsplit, Store.createdIds_append] at h
  exact (List.nodup_append.mp h).2.2 hpre hpost

/-- Witness for C1 at the history create, remove, create: the two created
ids differ, and id 1, created then deleted, is not created again. -/
theorem C1_created_ids_distinct_witness :
    (Store.empty.createdIds
      [StoreOp.create "CHQ-1001" (JsonVal.bool true), StoreOp.remove 1,
       StoreOp.create "CHQ-1002" (JsonVal.bool false)]).Nodup ∧
    1 ∈ Store.empty.createdIds
      [StoreOp.create "CHQ-1001" (JsonVal.bool true), StoreOp.remove 1] ∧
    1 ∉ (Store.empty.run
      [StoreOp.create "CHQ-1001" (JsonVal.bool true), StoreOp.remove 1]).createdIds
      [StoreOp.create "CHQ-1002" (JsonVal.bool false)] := by
  have h := C1_created_ids_distinct
    [StoreOp.create "CHQ-1001" (JsonVal.bool true), StoreOp.remove 1,
     StoreOp.create "CHQ-1002" (JsonVal.bool false)]
  have hmem : 1 ∈ Store.empty.createdIds
      [StoreOp.create "CHQ-1001" (JsonVal.bool true), StoreOp.remove 1] := by
    simp [Store.createdIds_cons, Store.createdIds_nil, Store.emitted, Store.step,
      Store.create, Store.remove, Store.empty, Store.hasId, boolEquiv]
  exact ⟨h.1, hmem,
    h.2 [StoreOp.create "CHQ-1001" (JsonVal.bool true), StoreOp.remove 1]
      [StoreOp.create "CHQ-1002" (JsonVal.bool false)] rfl 1 hmem⟩

/-- C2: After every sequence of Store operations from the fresh Store, the
set of ids present has no duplicates; `list()` never returns a record that
was successfully `remove()`d (the id stays absent for the rest of the
history); and `list()` never omits a record that was successfully
`create()`d and not yet removed. -/
theorem C2_list_integrity (ops : List StoreOp) :
    ((Store.empty.run ops).records.map (fun r => r.id)).Nodup ∧
    (∀ pre id post, ops = pre ++ StoreOp.remove id :: post →
      (Store.empty.run pre).hasId id = true →
      ∀ r ∈ (Store.empty.run ops).records, r.id ≠ id) ∧
    (∀ pre cn ma post r s', ops = pre ++ StoreOp.create cn ma :: post →
      (Store.empty.run pre).create cn ma = Except.ok (r, s') →
      (∀ id, StoreOp.remove id ∈ post → id ≠ r.id) →
      r ∈ (Store.empty.run ops).records) := by
  refine ⟨?_, ?_, ?_⟩
  · have h := Store.sorted_run Store.empty ops Store.wf_empty (by simp [Store.empty])
    exact h.imp Nat.ne_of_lt
  · intro pre id post hsplit hhas r hr
    have hwf : (Store.empty.run pre).wf := Store.wf_run _ _ Store.wf_empty
    obtain ⟨r₀, hr₀, hbeq⟩ := List.any_eq_true.mp hhas
    have hr₀id : r₀.id = id := by simpa using hbeq
    have hlt : id < (Store.empty.run pre).nextId := hr₀id ▸ hwf r₀ hr₀
    have hok : (Store.empty.run pre).remove id =
        .ok ⟨(Store.empty.run pre).nextId,
             (Store.empty.run pre).records.filter (fun r => r.id != id)⟩ := by
      unfold Store.remove
      rw [if_pos hhas]
    have hstep := Store.step_remove_of_ok _ id _ hok
    have habs : ∀ r' ∈ ((Store.empty.run pre).step (.remove id)).records,
        r'.id ≠ id := by
      rw [hstep]
      intro r' hr'
      simpa using (List.mem_filter.mp hr').2
    have hlt' : id < ((Store.empty.run pre).step (.remove id)).nextId := by
      rw [hstep]; exact hlt
    have hrun : Store.empty.run ops =
        ((Store.empty.run pre).step (.remove id)).run post := by
      rw [hsplit, Store.run_append, Store.run_cons]
    rw [hrun] at hr
    exact Store.dead_run _ id post hlt' habs r hr
  · intro pre cn ma post r s' hsplit hok hpost
    have hstep := Store.step_create_of_ok _ cn ma r s' hok
    obtain ⟨b, _, _, _, hs'⟩ := Store.create_eq_ok _ cn ma r s' hok
    have hmem : r ∈ s'.records := by
      rw [hs']
      exact List.mem_append_right _ (List.mem_singleton.mpr rfl)
    have hrun : Store.empty.run ops = s'.run post := by
      rw [hsplit, Store.run_append, Store.run_cons, hstep]
    rw [hrun]
    exact Store.mem_run s' r post hmem (fun id hid => hpost id hid)

/-- Witness for C2 at the history create, remove, create of spec §8's
scenario: the final list has distinct ids, id 1 is gone for good after its
removal, and the second record, never removed, is present. -/
theorem C2_list_integrity_witness :
    (((Store.empty.run
        [StoreOp.create "CHQ-1001" (JsonVal.bool true), StoreOp.remove 1,
         StoreOp.create "CHQ-1002" (JsonVal.bool false)]).records.map
        (fun r => r.id)).Nodup) ∧
    (Store.empty.run [StoreOp.create "CHQ-1001" (JsonVal.bool true)]).hasId 1
      = true ∧
    (∀ r ∈ (Store.empty.run
        [StoreOp.create "CHQ-1001" (JsonVal.bool true), StoreOp.remove 1,
         StoreOp.create "CHQ-1002" (JsonVal.bool false)]).records, r.id ≠ 1) ∧
    (⟨2, "CHQ-1002", false⟩ : ChequeRecord) ∈ (Store.empty.run
        [StoreOp.create "CHQ-1001" (JsonVal.bool true), StoreOp.remove 1,
         StoreOp.create "CHQ-1002" (JsonVal.bool false)]).records := by
  have h := C2_list_integrity
    [StoreOp.create "CHQ-1001" (JsonVal.bool true), StoreOp.remove 1,
     StoreOp.create "CHQ-1002" (JsonVal.bool false)]
  refine ⟨h.1, by decide, ?_, ?_⟩
  · exact h.2.1 [StoreOp.create "CHQ-1001" (JsonVal.bool true)] 1
      [StoreOp.create "CHQ-1002" (JsonVal.bool false)] rfl (by decide)
  · exact h.2.2 [StoreOp.create "CHQ-1001" (JsonVal.bool true), StoreOp.remove 1]
      "CHQ-1002" (JsonVal.bool false) [] ⟨2, "CHQ-1002", false⟩
      ⟨3, [⟨2, "CHQ-1002", false⟩]⟩ rfl rfl (by intro id hid; cases hid)

/-- C3: `remove(id)` fails with `NotFoundError` exactly when no record with
that id currently exists; after a successful `remove(id)` a second
`remove(id)` fails with `NotFoundError` and `list()` has no record with
that id. -/
theorem C3_remove_semantics (s : Store) (id : Nat) :
    (s.remove id = .error .NotFoundError ↔ ∀ r ∈ s.records, r.id ≠ id) ∧
    ∀ s', s.remove id = .ok s' →
      s'.remove id = .error .NotFoundError ∧ ∀ r ∈ s'.list, r.id ≠ id := by
  have hchar : ∀ t : Store, t.hasId id = false ↔ ∀ r ∈ t.records, r.id ≠ id := by
    intro t
    constructor
    · intro hf r hr hEq
      have : t.hasId id = true := List.any_eq_true.mpr ⟨r, hr, by simp [hEq]⟩
      rw [hf] at this
      cases this
    · intro hne
      cases hh : t.hasId id with
      | false => rfl
      | true =>
        obtain ⟨r, hr, hbeq⟩ := List.any_eq_true.mp hh
        exact absurd (by simpa using hbeq) (hne r hr)
  have herr : ∀ t : Store, t.hasId id = false →
      t.remove id = .error .NotFoundError := by
    intro t hf
    unfold Store.remove
    rw [if_neg (by rw [hf]; exact Bool.false_ne_true)]
  refine ⟨?_, ?_⟩
  · constructor
    · intro h
      refine (hchar s).mp ?_
      cases hh : s.hasId id with
      | false => rfl
      | true =>
        unfold Store.remove at h
        rw [if_pos hh] at h
        cases h
    · intro h
      exact herr s ((hchar s).mpr h)
  · intro s' hok
    obtain ⟨_, hs'⟩ := Store.remove_eq_ok s id s' hok
    have habs : ∀ r ∈ s'.records, r.id ≠ id := by
      rw [hs']
      intro r hr
      simpa using (List.mem_filter.mp hr).2
    exact ⟨herr s' ((hchar s').mpr habs), habs⟩

/-- Witness for C3 at a one-record Store: removing id 1 succeeds, a second
removal fails with `NotFoundError`, and the list is then free of id 1. -/
theorem C3_remove_semantics_witness :
    ((Store.mk 2 [⟨1, "CHQ-1001", true⟩]).remove 1 =
      .ok (Store.mk 2 []) ∧
     (Store.mk 2 []).remove 1 = .error .NotFoundError ∧
     ∀ r ∈ (Store.mk 2 []).list, r.id ≠ 1) ∧
    ((Store.mk 2 []).remove 1 = .error .NotFoundError ↔
      ∀ r ∈ (Store.mk 2 []).records, r.id ≠ 1) := by
  have h := C3_remove_semantics (Store.mk 2 [⟨1, "CHQ-1001", true⟩]) 1
  have h2 := C3_remove_semantics (Store.mk 2 []) 1
  have hok : (Store.mk 2 [⟨1, "CHQ-1001", true⟩]).remove 1 =
      .ok (Store.mk 2 []) := rfl
  obtain ⟨h21, h22⟩ := h.2 (Store.mk 2 []) hok
  exact ⟨⟨hok, h21, h22⟩, h2.1⟩

/-- C4: `create` fails with `ValidationError` when `chequeNumber` is empty
or `managerApproved` is not a recognized boolean-equivalent value, and on
such a failure no record is added: the list after the failed create is the
very sequence from before it. -/
theorem C4_create_validation (s : Store) (cn : String) (ma : JsonVal)
    (h : cn = "" ∨ boolEquiv ma = none) :
    s.create cn ma = .error .ValidationError ∧
    (s.step (.create cn ma)).list = s.list := by
  have herr : s.create cn ma = .error .ValidationError := by
    rcases h with hcn | hma
    · unfold Store.create
      cases hb : boolEquiv ma with
      | none => rfl
      | some b => simp [hcn]
    · unfold Store.create
      rw [hma]
  exact ⟨herr, by simp [Store.step, herr]⟩

/-- Witness for C4: `create("", true)` on a one-record Store fails with
`ValidationError` and leaves the list unchanged. -/
theorem C4_create_validation_witness :
    (Store.mk 2 [⟨1, "CHQ-1001", true⟩]).create "" (JsonVal.bool true) =
      .error .ValidationError ∧
    ((Store.mk 2 [⟨1, "CHQ-1001", true⟩]).step
      (.create "" (JsonVal.bool true))).list =
      (Store.mk 2 [⟨1, "CHQ-1001", true⟩]).list :=
  C4_create_validation (Store.mk 2 [⟨1, "CHQ-1001", true⟩]) "" (JsonVal.bool true)
    (Or.inl rfl)

theorem Store.hasId_eq_true (s : Store) (id : Nat) :
    s.hasId id = true ↔ ∃ r ∈ s.records, r.id = id := by
  constructor
  · intro h
    obtain ⟨r, hr, hbeq⟩ := List.any_eq_true.mp h
    exact ⟨r, hr, by simpa using hbeq⟩
  · rintro ⟨r, hr, hrid⟩
    exact List.any_eq_true.mpr ⟨r, hr, by simp [hrid]⟩

theorem Store.hasId_eq_false (s : Store) (id : Nat) :
    s.hasId id = false ↔ ∀ r ∈ s.records, r.id ≠ id := by
  rw [← Bool.not_eq_true, Store.hasId_eq_true]
  push_neg
  rfl

/-- C5: `list()` / GET returns all currently pending records as an array in
insertion order; the reachable lists are ordered oldest-pending-first (their
ids increase along the list), and with no records pending the result is the
empty array, never null, absent, or an error. -/
theorem C5_list_order (ops : List StoreOp) :
    (∀ s : Store, s.list = s.records) ∧
    Store.empty.list = [] ∧
    Service.getCheques Store.empty = ⟨200, JsonVal.arr []⟩ ∧
    (∀ s : Store, (Service.getCheques s).status = 200 ∧
      (Service.getCheques s).body = JsonVal.arr (s.list.map recordJson)) ∧
    ((Store.empty.run ops).list.map (fun r => r.id)).Pairwise (· < ·) := by
  refine ⟨fun s => rfl, rfl, rfl, fun s => ⟨rfl, rfl⟩, ?_⟩
  exact Store.sorted_run Store.empty ops Store.wf_empty (by simp [Store.empty])

/-- C6: every creation request the client issues is a POST to the
`/api/cheques` endpoint whose body is exactly
`{cheque_number: string, manager_approved: boolean}`; on success the Service
responds with the created record, and invalid input yields a client-error
(4xx) response. -/
theorem C6_post_contract (st : ClientState) (s : Store) (cn : String)
    (ma : JsonVal) :
    (submitRequest st).method = "POST" ∧
    (submitRequest st).url = API_URL ∧
    (submitRequest st).requestBody = some (JsonVal.obj
      [("cheque_number", JsonVal.str st.chequeNo),
       ("manager_approved", JsonVal.bool (st.approved == "yes"))]) ∧
    (∀ r s', s.create cn ma = .ok (r, s') →
      (Service.postCheques s cn ma).1.status = 201 ∧
      (Service.postCheques s cn ma).1.body = recordJson r) ∧
    (s.create cn ma = .error .ValidationError →
      400 ≤ (Service.postCheques s cn ma).1.status ∧
      (Service.postCheques s cn ma).1.status < 500) := by
  refine ⟨rfl, rfl, rfl, ?_, ?_⟩
  · intro r s' hok
    constructor <;> simp [Service.postCheques, hok]
  · intro herr
    constructor <;> simp [Service.postCheques, herr]

/-- Witness for C6: the first create of spec §8's scenario yields 201 with
the record of id 1, while the empty cheque number yields a 4xx status. -/
theorem C6_post_contract_witness :
    (submitRequest (ClientState.mk "CHQ-1001" "yes" [] false "" "")).method
      = "POST" ∧
    (Service.postCheques Store.empty "CHQ-1001" (JsonVal.bool true)).1.status
      = 201 ∧
    (Service.postCheques Store.empty "CHQ-1001" (JsonVal.bool true)).1.body
      = recordJson ⟨1, "CHQ-1001", true⟩ ∧
    400 ≤ (Service.postCheques Store.empty "" (JsonVal.bool true)).1.status ∧
    (Service.postCheques Store.empty "" (JsonVal.bool true)).1.status < 500 := by
  have h1 := C6_post_contract (ClientState.mk "CHQ-1001" "yes" [] false "" "")
    Store.empty "CHQ-1001" (JsonVal.bool true)
  have h2 := C6_post_contract (ClientState.mk "CHQ-1001" "yes" [] false "" "")
    Store.empty "" (JsonVal.bool true)
  obtain ⟨hc1, hc2⟩ := h1.2.2.2.1 ⟨1, "CHQ-1001", true⟩
    ⟨2, [⟨1, "CHQ-1001", true⟩]⟩ rfl
  obtain ⟨hd1, hd2⟩ := h2.2.2.2.2 rfl
  exact ⟨h1.1, hc1, hc2, hd1, hd2⟩

/-- C7: every clearance request is a DELETE to `/api/cheques/{id}`; the
Service answers with a success status (204) when the id references a pending
record and 404 when it does not, and the client reports a failed clearance on
any non-ok response. -/
theorem C7_delete_contract (s : Store) (id : Nat) (st : ClientState)
    (loadRes : FetchResult) :
    (clearRequest id).method = "DELETE" ∧
    (clearRequest id).url = API_URL ++ "/" ++ toString id ∧
    ((∃ r ∈ s.records, r.id = id) →
      (Service.deleteCheque s id).1.status = 204) ∧
    ((∀ r ∈ s.records, r.id ≠ id) →
      (Service.deleteCheque s id).1.status = 404) ∧
    (∀ status body, responseOk status = false →
      (clearCheque st true (.response status body) loadRes).1.notificationMessage
        = "Failed to clear cheque" ∧
      (clearCheque st true (.response status body) loadRes).1.notificationType
        = "error") := by
  refine ⟨rfl, rfl, ?_, ?_, ?_⟩
  · intro hex
    have hhas := (Store.hasId_eq_true s id).mpr hex
    simp [Service.deleteCheque, Store.remove, hhas]
  · intro hne
    have hhas := (Store.hasId_eq_false s id).mpr hne
    simp [Service.deleteCheque, Store.remove, hhas]
  · intro status body hnok
    constructor <;>
      simp [clearCheque, hnok, showNotification]

/-- Witness for C7: deleting id 1 from a Store holding it gives 204, from
the emptied Store gives 404, and a 404 response makes the client show the
failure notification. -/
theorem C7_delete_contract_witness :
    (clearRequest 1).method = "DELETE" ∧
    (clearRequest 1).url = API_URL ++ "/" ++ toString 1 ∧
    (Service.deleteCheque (Store.mk 2 [⟨1, "CHQ-1001", true⟩]) 1).1.status
      = 204 ∧
    (Service.deleteCheque (Store.mk 2 []) 1).1.status = 404 ∧
    (clearCheque initialClientState true (.response 404 .null)
      .networkError).1.notificationMessage = "Failed to clear cheque" := by
  have h1 := C7_delete_contract (Store.mk 2 [⟨1, "CHQ-1001", true⟩]) 1
    initialClientState FetchResult.networkError
  have h2 := C7_delete_contract (Store.mk 2 []) 1 initialClientState
    FetchResult.networkError
  refine ⟨h1.1, h1.2.1, ?_, ?_, ?_⟩
  · exact h1.2.2.1 ⟨⟨1, "CHQ-1001", true⟩, List.mem_singleton.mpr rfl, rfl⟩
  · exact h2.2.2.2.1 (by intro r hr; cases hr)
  · exact (h1.2.2.2.2 404 JsonVal.null rfl).1

/-- Every timer scheduled by `loadCheques` is the 3000 ms notification
clear. -/
theorem loadCheques_timers (st : ClientState) (res : FetchResult) (t : Timer)
    (h : t ∈ (loadCheques st res).2) : t = ⟨3000, clearNotification⟩ := by
  cases res with
  | networkError =>
    simp only [loadCheques] at h
    exact List.mem_singleton.mp h
  | response status data =>
    simp only [loadCheques] at h
    cases h

/-- Every timer scheduled by `submitCheque` is the 3000 ms notification
clear. -/
theorem submitCheque_timers (st : ClientState) (res loadRes : FetchResult)
    (t : Timer) (h : t ∈ (submitCheque st res loadRes).2) :
    t = ⟨3000, clearNotification⟩ := by
  cases res with
  | networkError =>
    simp only [submitCheque] at h
    exact List.mem_singleton.mp h
  | response status body =>
    simp only [submitCheque] at h
    by_cases hok : responseOk status = true
    · rw [if_pos hok] at h
      rcases List.mem_cons.mp h with h1 | h2
      · exact h1
      · exact loadCheques_timers _ _ t h2
    · rw [if_neg hok] at h
      exact List.mem_singleton.mp h

/-- Every timer scheduled by `clearCheque` is the 3000 ms notification
clear. -/
theorem clearCheque_timers (st : ClientState) (confirmed : Bool)
    (res loadRes : FetchResult) (t : Timer)
    (h : t ∈ (clearCheque st confirmed res loadRes).2) :
    t = ⟨3000, clearNotification⟩ := by
  cases confirmed with
  | false =>
    simp only [clearCheque] at h
    cases h
  | true =>
    cases res with
    | networkError =>
      simp only [clearCheque] at h
      exact List.mem_singleton.mp h
    | response status body =>
      simp only [clearCheque] at h
      by_cases hok : responseOk status = true
      · rw [if_pos hok] at h
        rcases List.mem_cons.mp h with h1 | h2
        · exact h1
        · exact loadCheques_timers _ _ t h2
      · rw [if_neg hok] at h
        exact List.mem_singleton.mp h

/-- C8: the only timer in the client is the purely presentational
auto-dismiss of the transient notification: `showNotification` sets the
message and its type and schedules a single 3000 ms timer whose action
clears them both, and every timer any handler schedules is exactly that
timer — no other scheduled work exists. -/
theorem C8_only_notification_timer (st : ClientState) (message ty : String) :
    (showNotification st message ty).1.notificationMessage = message ∧
    (showNotification st message ty).1.notificationType = ty ∧
    (showNotification st message ty).2.delayMs = 3000 ∧
    (∀ st', ((showNotification st message ty).2.action st').notificationMessage
        = "" ∧
      ((showNotification st message ty).2.action st').notificationType = "") ∧
    (∀ res t, t ∈ (loadCheques st res).2 → t = ⟨3000, clearNotification⟩) ∧
    (∀ res loadRes t, t ∈ (submitCheque st res loadRes).2 →
      t = ⟨3000, clearNotification⟩) ∧
    (∀ confirmed res loadRes t,
      t ∈ (clearCheque st confirmed res loadRes).2 →
      t = ⟨3000, clearNotification⟩) := by
  refine ⟨rfl, rfl, rfl, fun st' => ⟨rfl, rfl⟩, ?_, ?_, ?_⟩
  · exact fun res t h => loadCheques_timers st res t h
  · exact fun res loadRes t h => submitCheque_timers st res loadRes t h
  · exact fun confirmed res loadRes t h =>
      clearCheque_timers st confirmed res loadRes t h

/-- Witness for C8 at the initial state: the notification fields are set and
cleared by the 3000 ms timer, and the timer scheduled by each of the three
handlers on a failed fetch is that very timer. -/
theorem C8_only_notification_timer_witness :
    (showNotification initialClientState "Failed to load cheques"
      "error").1.notificationMessage = "Failed to load cheques" ∧
    (showNotification initialClientState "Failed to load cheques"
      "error").2.delayMs = 3000 ∧
    ((showNotification initialClientState "Failed to load cheques"
      "error").2.action (showNotification initialClientState
      "Failed to load cheques" "error").1).notificationMessage = "" ∧
    ((⟨3000, clearNotification⟩ : Timer) ∈
      (loadCheques initialClientState .networkError).2 →
      (⟨3000, clearNotification⟩ : Timer) = ⟨3000, clearNotification⟩) ∧
    (⟨3000, clearNotification⟩ : Timer) ∈
      (submitCheque initialClientState .networkError .networkError).2 ∧
    (⟨3000, clearNotification⟩ : Timer) ∈
      (clearCheque initialClientState true .networkError .networkError).2 := by
  have h := C8_only_notification_timer initialClientState
    "Failed to load cheques" "error"
  have hmem₂ : (⟨3000, clearNotification⟩ : Timer) ∈
      (submitCheque initialClientState .networkError .networkError).2 :=
    List.mem_singleton.mpr rfl
  have hmem₃ : (⟨3000, clearNotification⟩ : Timer) ∈
      (clearCheque initialClientState true .networkError .networkError).2 :=
    List.mem_singleton.mpr rfl
  have hload := h.2.2.2.2.1 FetchResult.networkError
  have hsub := h.2.2.2.2.2.1 FetchResult.networkError FetchResult.networkError
    ⟨3000, clearNotification⟩ hmem₂
  exact ⟨h.1, h.2.2.1, (h.2.2.2.1 _).1, fun hm => hload _ hm, hmem₂, hmem₃⟩

/-- C9: when the parsed GET body is not an array, `loadCheques` stores the
empty list rather than the non-array value, and when it is an array it
stores exactly its elements — so the rendered collection is always a list. -/
theorem C9_nonarray_resets (st : ClientState) (status : Nat) (data : JsonVal) :
    ((∀ xs, data ≠ JsonVal.arr xs) →
      (loadCheques st (.response status data)).1.cheques = []) ∧
    (∀ xs, data = JsonVal.arr xs →
      (loadCheques st (.response status data)).1.cheques = xs) := by
  constructor
  · intro h
    cases data with
    | arr xs => exact absurd rfl (h xs)
    | null => rfl
    | bool b => rfl
    | num n => rfl
    | str s => rfl
    | obj fields => rfl
  · intro xs h
    subst h
    rfl

/-- Witness for C9: a null body yields the empty collection, an array body
yields its elements. -/
theorem C9_nonarray_resets_witness :
    (loadCheques initialClientState (.response 200 .null)).1.cheques = [] ∧
    (loadCheques initialClientState
      (.response 200 (.arr [.null]))).1.cheques = [JsonVal.null] := by
  have h1 := C9_nonarray_resets initialClientState 200 JsonVal.null
  have h2 := C9_nonarray_resets initialClientState 200 (JsonVal.arr [.null])
  exact ⟨h1.1 (fun xs hx => JsonVal.noConfusion hx), h2.2 [.null] rfl⟩

/-- Reloading via `loadCheques` touches neither of the form fields. -/
theorem loadCheques_fields (st : ClientState) (res : FetchResult) :
    (loadCheques st res).1.chequeNo = st.chequeNo ∧
    (loadCheques st res).1.approved = st.approved := by
  cases res with
  | networkError => exact ⟨rfl, rfl⟩
  | response status data => exact ⟨rfl, rfl⟩

/-- C10: the `manager_approved` field the client sends is the boolean strict
comparison of the radio selection with `'yes'` — true exactly when the
selection is `'yes'`, false otherwise, never a non-boolean — and a
successful submission resets the form to `chequeNo = ''`,
`approved = 'yes'`. -/
theorem C10_approval_strict (st : ClientState) (status : Nat) (body : JsonVal)
    (loadRes : FetchResult) (hok : responseOk status = true) :
    (submitRequest st).requestBody = some (JsonVal.obj
      [("cheque_number", JsonVal.str st.chequeNo),
       ("manager_approved", JsonVal.bool (st.approved == "yes"))]) ∧
    (st.approved = "yes" → (st.approved == "yes") = true) ∧
    (st.approved ≠ "yes" → (st.approved == "yes") = false) ∧
    (submitCheque st (.response status body) loadRes).1.chequeNo = "" ∧
    (submitCheque st (.response status body) loadRes).1.approved = "yes" := by
  refine ⟨rfl, fun h => beq_iff_eq.mpr h, fun h => beq_eq_false_iff_ne.mpr h,
    ?_, ?_⟩
  · simp only [submitCheque, if_pos hok]
    rw [(loadCheques_fields _ _).1]
  · simp only [submitCheque, if_pos hok]
    rw [(loadCheques_fields _ _).2]

/-- Witness for C10 with the radio on `'no'` and a 200 response: the sent
approval is the boolean false and the form resets. -/
theorem C10_approval_strict_witness :
    (submitRequest (ClientState.mk "CHQ-7" "no" [] false "" "")).requestBody
      = some (JsonVal.obj
        [("cheque_number", JsonVal.str "CHQ-7"),
         ("manager_approved", JsonVal.bool false)]) ∧
    (("no" : String) == "yes") = false ∧
    (submitCheque (ClientState.mk "CHQ-7" "no" [] false "" "")
      (.response 200 .null) .networkError).1.chequeNo = "" ∧
    (submitCheque (ClientState.mk "CHQ-7" "no" [] false "" "")
      (.response 200 .null) .networkError).1.approved = "yes" := by
  have h := C10_approval_strict (ClientState.mk "CHQ-7" "no" [] false "" "")
    200 JsonVal.null FetchResult.networkError rfl
  exact ⟨h.1, h.2.2.1 (by decide), h.2.2.2.1, h.2.2.2.2⟩

end ChequeApp
